import Mathlib

/-!
Shallow embedding of the acpone agent gateway core
(backend/internal/jsonrpc/protocol.go, backend/internal/agent/process.go,
backend/internal/agent/fileops.go, backend/internal/api/notification.go)
together with proofs settling the specification claims.
-/

set_option maxRecDepth 4000

namespace AcpOne

/-! ## jsonrpc/protocol.go -/

/-- jsonrpc.Error: {Code int, Message string} (Data omitted: never inspected
by the code under verification). -/
structure RpcError where
  code : Int
  message : String
deriving DecidableEq, Repr

/-- jsonrpc.Message: the union type for incoming messages.  `id?` models the
`ID *int` pointer field (`none` = nil / absent); `method` models the `Method`
string field (Go zero value `""` = absent); `error?` models `Error *Error`.
Params/Result payloads are not carried: no claim inspects them on Message. -/
structure Message where
  id? : Option Int
  method : String
  error? : Option RpcError
deriving DecidableEq, Repr

/-- Message.IsRequest: `m.ID != nil && m.Method != ""`. -/
def Message.IsRequest (m : Message) : Bool :=
  m.id?.isSome && m.method != ""

/-- Message.IsResponse: `m.ID != nil && m.Method == ""`. -/
def Message.IsResponse (m : Message) : Bool :=
  m.id?.isSome && m.method == ""

/-- Message.IsNotification: `m.ID == nil && m.Method != ""`. -/
def Message.IsNotification (m : Message) : Bool :=
  m.id?.isNone && m.method != ""

/-! ## agent/process.go : data model -/

/-- agent.Status: the five process states. -/
inductive Status where
  | idle
  | starting
  | running
  | error
  | stopped
deriving DecidableEq, Repr

/-- State of a pending request's buffered result channel
(`make(chan *jsonrpc.Message, 1)`).  `waiting`: nothing sent yet (the caller
blocks); `delivered m`: the read loop sent message m; `closed`: Stop closed
the channel. -/
inductive ChanState where
  | waiting
  | delivered (m : Message)
  | closed
deriving DecidableEq, Repr

/-- agent.PendingRequest: {Result chan, Method string}. -/
structure PendingRequest where
  result : ChanState
  method : String
deriving DecidableEq, Repr

/-- agent.PendingPermission: {RequestID int, Response chan string}.
`hasChan` models whether the Response channel is non-nil (the code always
creates it with `make`, but ConfirmPermission re-checks). -/
structure PendingPermission where
  requestID : Int
  hasChan : Bool
deriving DecidableEq, Repr

/-- agent.Process mutable state.  Pipe handles are modelled by generation
numbers: `stdout = some g` is the stdout handle of the g-th spawn,
`stdout = none` is a nil handle (cleared).  `cmdPresent` / `stdinPresent`
model the `cmd` / `stdin` fields being non-nil.  The pending table is an
association list keyed by the numeric request id; permissions by tool-call
id. -/
structure ProcState where
  status : Status
  cmdPresent : Bool
  stdinPresent : Bool
  stdout : Option Nat
  requestID : Int
  pending : List (Int × PendingRequest)
  permissions : List (String × PendingPermission)
  workingDir : String
deriving DecidableEq, Repr

/-- agent.NewProcess: status Idle, empty tables, nil cmd/pipes. -/
def initProc (wd : String) : ProcState :=
  { status := .idle, cmdPresent := false, stdinPresent := false,
    stdout := none, requestID := 0, pending := [], permissions := [],
    workingDir := wd }

/-! ## agent/process.go : operations -/

/-- Process.Start: no-op when already Running, otherwise transitions to
Starting and spawns.  The four failure points (three pipe creations and
cmd.Start) are collapsed into the single flag `ok`; on failure the code only
calls setStatus(StatusError) and leaves cmd/stdin/stdout untouched.  On
success it installs the new cmd and pipes (`gen` is the fresh stdout handle)
and sets Running. -/
def startP (s : ProcState) (ok : Bool) (gen : Nat) : ProcState :=
  if s.status = .running then s
  else
    let s1 := { s with status := Status.starting }
    if ok then
      { s1 with
        cmdPresent := true,
        stdinPresent := true,
        stdout := some gen,
        status := Status.running }
    else
      { s1 with status := Status.error }

/-- Process.Stop: no-op when `cmd == nil`; otherwise clears cmd/stdin/stdout,
sets status Stopped, and closes and deletes every pending request's result
channel.  The second component is the list of force-resolved channels
(each caller's channel is now closed).  Signalling/waiting/killing the OS
process affects no modelled state. -/
def stopP (s : ProcState) : ProcState × List (Int × ChanState) :=
  if s.cmdPresent then
    ({ s with
       cmdPresent := false,
       stdinPresent := false,
       stdout := none,
       status := Status.stopped,
       pending := [] },
     s.pending.map (fun p => (p.1, ChanState.closed)))
  else (s, [])

/-- Process.Request, send half: auto-start when not Running (aborting on
start failure), allocate the next id, register a PendingRequest with a
waiting channel, then write the request line; when the write fails because
stdin is nil the entry is deleted again. -/
def requestP (s0 : ProcState) (method : String) (ok : Bool) (gen : Nat) :
    ProcState :=
  if s0.status ≠ .running ∧ ok = false then startP s0 ok gen
  else
    let s := if s0.status ≠ .running then startP s0 ok gen else s0
    let i := s.requestID + 1
    let s1 := { s with
      requestID := i,
      pending := (i, ⟨ChanState.waiting, method⟩) :: s.pending }
    if s1.stdinPresent then s1
    else { s1 with pending := s1.pending.filter (fun p => p.1 ≠ i) }

/-- The failure values Process.Request can return from its wait:
`cancelled` is `fmt.Errorf("request cancelled")` (channel closed by Stop);
`remote e` is the typed `msg.Error` (a RemoteError). -/
inductive RequestError where
  | cancelled
  | remote (e : RpcError)
deriving DecidableEq, Repr

/-- The error text a caller observes, `err.Error()`. -/
def RequestError.text : RequestError → String
  | .cancelled => "request cancelled"
  | .remote e => "jsonrpc error " ++ toString e.code ++ ": " ++ e.message

/-- Process.Request, wait half: `msg, ok := <-resultCh`.  `none` while the
channel is still waiting (the caller stays blocked); on a closed channel the
caller gets the "request cancelled" failure; on a delivered message carrying
an Error the caller gets that typed failure, otherwise the message. -/
def awaitResult : ChanState → Option (Except RequestError Message)
  | .waiting => none
  | .closed => some (Except.error RequestError.cancelled)
  | .delivered m =>
      match m.error? with
      | some e => some (Except.error (RequestError.remote e))
      | none => some (Except.ok m)

/-- What Process.handleMessage did with a decoded line. -/
inductive Dispatch where
  | response (resolved : Option (Int × PendingRequest))
  | request
  | notification
  | ignored
deriving DecidableEq, Repr

/-- Process.handleMessage acting on the pending table: a response removes the
matching pending entry (when present) and delivers the message on its
channel; a request is dispatched to handleRequest; a notification goes to
the onNotification handler; anything else falls through all three guards. -/
def handleMessage (pending : List (Int × PendingRequest)) (m : Message) :
    List (Int × PendingRequest) × Dispatch :=
  if m.IsResponse = true ∧ m.id?.isSome then
    match m.id? with
    | some i =>
        match pending.lookup i with
        | some pr =>
            (pending.filter (fun p => p.1 ≠ i),
             .response (some (i, { pr with result := ChanState.delivered m })))
        | none => (pending, .response none)
    | none => (pending, .response none)
  else if m.IsRequest = true then (pending, .request)
  else if m.IsNotification = true then (pending, .notification)
  else (pending, .ignored)

/-- Tail of Process.readLoop: when the scan ends, set status Stopped only if
the captured stdout handle is still the current one or the process has been
cleared (`p.stdout == currentStdout || p.stdout == nil`).  `captured` is the
non-nil handle the loop grabbed at start. -/
def readLoopEnd (captured : Nat) (s : ProcState) : ProcState :=
  if s.stdout = some captured ∨ s.stdout = none then
    { s with status := Status.stopped }
  else s

/-- Process.ConfirmPermission: look up and remove the PendingPermission for
toolCallID and push optionID onto its channel.  The second component is the
delivered signal (pending permission's request id together with the chosen
option), `none` when nothing was delivered. -/
def confirmPermission (s : ProcState) (toolCallID optionID : String) :
    ProcState × Option (Int × String) :=
  match s.permissions.lookup toolCallID with
  | some perm =>
      ({ s with permissions :=
           s.permissions.filter (fun q => q.1 ≠ toolCallID) },
       if perm.hasChan then some (perm.requestID, optionID) else none)
  | none => (s, none)

/-- Outcome classification in Process.handlePermissionRequest:
`outcome := "selected"; if len(optionID) > 6 && optionID[:6] == "reject"
then outcome = "rejected"`.  The byte slice `optionID[:6]` is modelled at
character level (the compared prefix "reject" is ASCII). -/
def permissionOutcome (optionID : String) : String :=
  if 6 < optionID.length ∧ optionID.data.take 6 = "reject".data then
    "rejected"
  else "selected"

/-- Process.SetWorkingDir. -/
def setWorkingDirP (s : ProcState) (dir : String) : ProcState :=
  { s with workingDir := dir }

/-! ## Traces of operations on one Process (sequentialised interleaving) -/

/-- One externally observable operation on a Process.  `start ok gen` is a
Start whose spawn succeeds iff ok, producing stdout handle gen; `request`
carries the same parameters for its auto-start; `deliver m` is the read
loop decoding line m; `readLoopEnd g` is a read loop (which captured handle
g) reaching end of scan; `confirm`/`setWorkingDir` as in the API. -/
inductive Op where
  | start (ok : Bool) (gen : Nat)
  | stop
  | request (method : String) (ok : Bool) (gen : Nat)
  | deliver (m : Message)
  | readLoopEnd (gen : Nat)
  | confirm (toolCallID optionID : String)
  | setWorkingDir (dir : String)
deriving DecidableEq, Repr

/-- Apply one operation to the process state. -/
def applyOp (s : ProcState) : Op → ProcState
  | .start ok gen => startP s ok gen
  | .stop => (stopP s).1
  | .request method ok gen => requestP s method ok gen
  | .deliver m => { s with pending := (handleMessage s.pending m).1 }
  | .readLoopEnd g => readLoopEnd g s
  | .confirm t o => (confirmPermission s t o).1
  | .setWorkingDir d => setWorkingDirP s d

/-- Run a trace of operations from the fresh process state. -/
def runOps (ops : List Op) : ProcState :=
  ops.foldl applyOp (initProc "")

/-- Reachability invariant of the process state: while Running a subprocess
handle exists, and once the handle is gone no pending request remains. -/
def ProcInv (s : ProcState) : Prop :=
  (s.status = .running → s.cmdPresent = true) ∧
  (s.cmdPresent = false → s.pending = [])


/-! ## agent/fileops.go -/

/-- path/filepath.IsAbs on Unix, `strings.HasPrefix(path, "/")`: the path
begins with the separator.  (Modelled from the Go standard library, which
fileops.go calls.) -/
def filepathIsAbs (path : String) : Bool :=
  match path.data with
  | c :: _ => c = '/'
  | [] => false

/-- Component processing of path/filepath.Clean (Unix): empty and "."
components are dropped; ".." pops the last kept component unless it is
itself "..", is dropped at the root, and is kept when relative with nothing
left to pop.  `acc` is the kept components in reverse.  (Modelled from the
Go standard library, which fileops.go calls.) -/
def cleanStack (rooted : Bool) : List String → List String → List String
  | acc, [] => acc
  | acc, c :: rest =>
      if c = "" ∨ c = "." then cleanStack rooted acc rest
      else if c = ".." then
        match acc with
        | [] => cleanStack rooted (if rooted then [] else [".."]) rest
        | top :: acc' =>
            if top = ".." then cleanStack rooted (c :: top :: acc') rest
            else cleanStack rooted acc' rest
      else cleanStack rooted (c :: acc) rest

/-- path/filepath.Clean (Unix), component form: "" cleans to ".", otherwise
the cleaned components are rejoined with "/", keeping a leading "/" for
rooted paths and yielding "." when nothing remains of a relative path. -/
def filepathClean (path : String) : String :=
  if path = "" then "."
  else
    let rooted := filepathIsAbs path
    let comps := (cleanStack rooted [] (path.splitOn "/")).reverse
    let body := String.intercalate "/" comps
    if rooted then "/" ++ body
    else if body = "" then "." else body

/-- path/filepath.Join restricted to two elements, as called by resolvePath:
leading empty elements are skipped, the rest are joined with "/" and
Cleaned; all-empty input yields "". -/
def filepathJoin (a b : String) : String :=
  if a ≠ "" then filepathClean (a ++ "/" ++ b)
  else if b ≠ "" then filepathClean b
  else ""

/-- Process.resolvePath: an empty target resolves to the working directory,
an absolute target is used verbatim, any other target is joined onto the
working directory. -/
def resolvePath (workingDir targetPath : String) : String :=
  if targetPath = "" then workingDir
  else if filepathIsAbs targetPath then targetPath
  else filepathJoin workingDir targetPath


/-! ## api/notification.go : data model -/

/-- Dynamic JSON value, modelling the `any`-typed payload fields
(`Content any`, `RawInput map[string]any`) of a session update.  Objects
are association lists of fields. -/
inductive JVal where
  | null : JVal
  | bool (b : Bool) : JVal
  | num (n : Int) : JVal
  | str (s : String) : JVal
  | arr (elems : List JVal) : JVal
  | obj (fields : List (String × JVal)) : JVal

mutual

/-- Deterministic rendering of a JSON value, standing in for Go
encoding/json marshalling in the two places notification.go serializes
rawInput for display (exact text is never inspected by the code). -/
def JVal.render : JVal → String
  | .null => "null"
  | .bool b => cond b "true" "false"
  | .num n => toString n
  | .str s => "\"" ++ s ++ "\""
  | .arr es => "[" ++ String.intercalate "," (renderElems es) ++ "]"
  | .obj fs => "\x7b" ++ String.intercalate "," (renderFields fs) ++ "\x7d"

def renderElems : List JVal → List String
  | [] => []
  | v :: vs => JVal.render v :: renderElems vs

def renderFields : List (String × JVal) → List String
  | [] => []
  | f :: fs => ("\"" ++ f.1 ++ "\":" ++ JVal.render f.2) :: renderFields fs

end

/-- api.SlashCommand (input hint omitted: never read by the handler). -/
structure SlashCommand where
  name : String
  description : String
deriving DecidableEq, Repr

/-- The `toolResponse` shape inside `_meta.claudeCode`. -/
structure ToolResponse where
  stdout : String
  stderr : String
  type : String
  file : Option (String × String)
deriving DecidableEq, Repr

/-- The `claudeCode` object of `_meta`.  `meta = some cc` in a SessionUpdate
models `Meta != nil && Meta.ClaudeCode != nil` (every use in the handler
guards both pointers together). -/
structure ClaudeCodeMeta where
  toolName : String
  toolResponse : Option ToolResponse
  error : String
deriving DecidableEq, Repr

/-- api.sessionUpdate: the decoded `update` object of a session/update
notification.  `rawInput = none` models a nil map. -/
structure SessionUpdate where
  sessionUpdate : String
  content : Option JVal
  toolCallId : String
  title : String
  status : String
  kind : String
  rawInput : Option (List (String × JVal))
  error : String
  meta : Option ClaudeCodeMeta
  availableCommands : List SlashCommand

/-- conversation.ToolCallInfo: the merged tool-call record. -/
structure ToolCallInfo where
  toolCallID : String
  toolName : String
  kind : String
  title : String
  description : String
  status : String
  input : String
  rawInput : String
  output : String
  error : String
deriving DecidableEq, Repr

/-- api.streamItem: tagged union of a flushed text block and a tool record. -/
inductive StreamItem where
  | text (t : String) : StreamItem
  | tool (t : ToolCallInfo) : StreamItem
deriving DecidableEq, Repr

/-- An event handed to the SSE sink (`sendEvent(name, payload)`). -/
inductive Event where
  | update (u : SessionUpdate) : Event
  | commands (agentID : String) (cmds : List SlashCommand) : Event
  | toolCall (info : ToolCallInfo) (sessionUpdate : String) : Event

/-- The translator state threaded through Server.handleNotification:
the per-turn stream items, text accumulator and tool-call index map, plus
the server's per-agent command cache. -/
structure TransState where
  streamItems : List StreamItem
  currentText : String
  toolCallMap : List (String × Nat)
  agentCommands : List (String × List SlashCommand)
deriving DecidableEq, Repr

/-! ## api/notification.go : helpers -/

/-- extractTextContent: text of a `content` object of shape
`.obj [.., type: "text", text: t, ..]`; "" otherwise. -/
def extractTextContent : Option JVal → String
  | some (.obj fields) =>
      match fields.lookup "type" with
      | some (.str "text") =>
          match fields.lookup "text" with
          | some (.str t) => t
          | _ => ""
      | _ => ""
  | _ => ""

/-- extractInput: raw-input heuristics in priority order: a string-valued
"command", else "file_path", else "pattern", else an "old_string" preview,
else pretty-printed JSON of the whole map; "" for a nil map. -/
def extractInput : Option (List (String × JVal)) → String
  | none => ""
  | some m =>
      match m.lookup "command" with
      | some (.str c) => c
      | _ =>
          match m.lookup "file_path" with
          | some (.str p) => p
          | _ =>
              match m.lookup "pattern" with
              | some (.str pat) => pat
              | _ =>
                  match m.lookup "old_string" with
                  | some (.str old) => "old_string: " ++ old
                  | _ => JVal.render (.obj m)

/-- extractOutput: stdout/stderr (or a file preview) from the nested
claudeCode toolResponse, with the claudeCode error and then the generic
update error overriding the error message. -/
def extractOutput (u : SessionUpdate) : String × String :=
  let p :=
    match u.meta with
    | some cc =>
        let q :=
          match cc.toolResponse with
          | some resp =>
              let o := if resp.stdout ≠ "" then resp.stdout else ""
              let e := if resp.stderr ≠ "" then resp.stderr else ""
              let o :=
                match resp.file with
                | some f =>
                    if resp.type = "text" then
                      "File: " ++ f.1 ++ "\n" ++ f.2
                    else o
                | none => o
              (o, e)
          | none => ("", "")
        if cc.error ≠ "" then (q.1, cc.error) else q
    | none => ("", "")
  if u.error ≠ "" then (p.1, u.error) else p

/-- extractDescription: text of a `content` array of shape
`.arr (.obj [.., content: .obj [.., text: t, ..], ..] :: _)`; "" otherwise. -/
def extractDescription : Option JVal → String
  | some (.arr (x :: _)) =>
      match x with
      | .obj fields =>
          match fields.lookup "content" with
          | some (.obj inner) =>
              match inner.lookup "text" with
              | some (.str t) => t
              | _ => ""
          | _ => ""
      | _ => ""
  | _ => ""

/-! ## api/notification.go : tool_call / tool_call_update handling -/

/-- The fields computed from the incoming update alone (before any merge):
tool name (claudeCode toolName overriding kind), title (falling back to the
tool-call id), status ("error" on any error field, else "completed" when the
update says so, else "pending"), input/output/error heuristics, description
(only extracted while the update's status is not "completed"), and the
serialized rawInput. -/
def buildToolCall (u : SessionUpdate) : ToolCallInfo :=
  let toolID := u.toolCallId
  let toolName :=
    match u.meta with
    | some cc => if cc.toolName ≠ "" then cc.toolName else u.kind
    | none => u.kind
  let title := if u.title = "" then toolID else u.title
  let hasError : Bool :=
    (u.error != "") ||
      (match u.meta with
       | some cc => cc.error != ""
       | none => false)
  let status :=
    if hasError then "error"
    else if u.status = "completed" then "completed"
    else "pending"
  let input := extractInput u.rawInput
  let oe := extractOutput u
  let description :=
    if u.status ≠ "completed" then extractDescription u.content else ""
  let rawInputJSON :=
    match u.rawInput with
    | some m => if 0 < m.length then JVal.render (.obj m) else ""
    | none => ""
  { toolCallID := toolID, toolName := toolName, kind := u.kind,
    title := title, description := description, status := status,
    input := input, rawInput := rawInputJSON, output := oe.1,
    error := oe.2 }

/-- The merge applied when a tool-call id repeats: each of
input/rawInput/description/output/error keeps the previously stored value
when the new one is empty, and the previous title survives when the new one
is just the opaque tool-call id while the old one is not. -/
def mergeTool (fresh existing : ToolCallInfo) (toolID : String) :
    ToolCallInfo :=
  { fresh with
    input := if fresh.input = "" then existing.input else fresh.input,
    rawInput :=
      if fresh.rawInput = "" then existing.rawInput else fresh.rawInput,
    title :=
      if fresh.title = toolID ∧ existing.title ≠ toolID then existing.title
      else fresh.title,
    description :=
      if fresh.description = "" then existing.description
      else fresh.description,
    output := if fresh.output = "" then existing.output else fresh.output,
    error := if fresh.error = "" then existing.error else fresh.error }

/-- Flush of the accumulated free text into a Text stream item at a
tool-call boundary. -/
def flushText (s : TransState) : TransState :=
  if s.currentText ≠ "" then
    { s with
      streamItems := s.streamItems ++ [StreamItem.text s.currentText],
      currentText := "" }
  else s

/-- The tool_call / tool_call_update branch of Server.handleNotification:
flush text, drop updates with an empty tool-call id, then merge into the
indexed record (or append a new one) and emit the enriched tool_call
event. -/
def applyToolUpdate (s0 : TransState) (u : SessionUpdate) :
    TransState × List Event :=
  let s := flushText s0
  let toolID := u.toolCallId
  if toolID = "" then (s, [])
  else
    let fresh := buildToolCall u
    match s.toolCallMap.lookup toolID with
    | some idx =>
        let merged :=
          match s.streamItems[idx]? with
          | some (.tool existing) => mergeTool fresh existing toolID
          | _ => fresh
        ({ s with streamItems := s.streamItems.set idx (.tool merged) },
         [Event.toolCall merged u.sessionUpdate])
    | none =>
        ({ s with
           toolCallMap := (toolID, s.streamItems.length) :: s.toolCallMap,
           streamItems := s.streamItems ++ [.tool fresh] },
         [Event.toolCall fresh u.sessionUpdate])

/-- Replacement write of a Go map entry (`s.agentCommands[agentID] = cmds`). -/
def putAssoc (l : List (String × List SlashCommand)) (k : String)
    (v : List SlashCommand) : List (String × List SlashCommand) :=
  (k, v) :: l.filter (fun q => q.1 ≠ k)

/-- Server.handleNotification: only session/update notifications are
handled; chunk kinds accumulate and forward text, available_commands_update
replaces the cache and emits a "commands" event (only for a non-empty
list), tool-call kinds go through applyToolUpdate, and every other update
kind is forwarded verbatim as a generic "update" event. -/
def handleNotification (agentID : String) (s : TransState) (method : String)
    (u : SessionUpdate) : TransState × List Event :=
  if method ≠ "session/update" then (s, [])
  else if u.sessionUpdate = "agent_message_chunk" ∨
          u.sessionUpdate = "agent_thought_chunk" then
    let t := extractTextContent u.content
    let s1 := if t ≠ "" then { s with currentText := s.currentText ++ t } else s
    (s1, [Event.update u])
  else if u.sessionUpdate = "available_commands_update" then
    if 0 < u.availableCommands.length then
      ({ s with agentCommands := putAssoc s.agentCommands agentID u.availableCommands },
       [Event.commands agentID u.availableCommands])
    else (s, [])
  else if u.sessionUpdate = "tool_call" ∨ u.sessionUpdate = "tool_call_update" then
    applyToolUpdate s u
  else (s, [Event.update u])

/-- Observation: the merged record stored for a tool-call id (the map index
followed into the stream-item list). -/
def recordAt (s : TransState) (toolID : String) : Option ToolCallInfo :=
  match s.toolCallMap.lookup toolID with
  | some idx =>
      match s.streamItems[idx]? with
      | some (.tool r) => some r
      | _ => none
  | none => none

/-- Well-formedness of the translator state: every index in the tool-call
map points inside the stream-item list (in Go an out-of-range index would
panic on `(*streamItems)[idx]`). -/
def WfTrans (s : TransState) : Prop :=
  ∀ q ∈ s.toolCallMap, q.2 < s.streamItems.length

theorem procInv_init (wd : String) : ProcInv (initProc wd) := by
  unfold ProcInv initProc
  refine ⟨fun h => ?_, fun h => ?_⟩ <;> simp_all

theorem procInv_startP (s : ProcState) (ok : Bool) (gen : Nat)
    (h : ProcInv s) : ProcInv (startP s ok gen) := by
  obtain ⟨h1, h2⟩ := h
  unfold ProcInv startP
  split
  · exact ⟨h1, h2⟩
  · split
    · refine ⟨fun _ => ?_, fun hc => ?_⟩ <;> simp_all
    · refine ⟨fun hr => ?_, fun hc => ?_⟩
      · simp at hr
      · simp at hc ⊢; exact h2 hc

theorem procInv_stopP (s : ProcState) (h : ProcInv s) :
    ProcInv (stopP s).1 := by
  obtain ⟨h1, h2⟩ := h
  unfold ProcInv stopP
  split
  · refine ⟨fun hr => ?_, fun _ => ?_⟩
    · simp at hr
    · simp
  · exact ⟨h1, h2⟩

theorem startP_cmd_of_ok (s : ProcState) (gen : Nat)
    (h : ProcInv s) : (startP s true gen).cmdPresent = true := by
  unfold startP
  split
  · rename_i hr; exact h.1 hr
  · simp

theorem procInv_requestP (s : ProcState) (method : String) (ok : Bool)
    (gen : Nat) (h : ProcInv s) : ProcInv (requestP s method ok gen) := by
  unfold ProcInv requestP
  split
  · exact procInv_startP s ok gen h
  · rename_i hnot
    dsimp only
    by_cases hr : s.status = .running
    · rw [if_neg (not_not_intro hr)]
      have hcmd := h.1 hr
      constructor
      · intro _
        split <;> simpa using hcmd
      · intro hc
        split at hc <;> simp at hc <;> (rw [hcmd] at hc; cases hc)
    · have hok : ok = true := by
        rcases Decidable.em (ok = false) with hf | ht
        · exact absurd ⟨hr, hf⟩ hnot
        · exact eq_true_of_ne_false ht
      subst hok
      rw [if_pos hr]
      have hcmd := startP_cmd_of_ok s gen h
      constructor
      · intro _
        split <;> simpa using hcmd
      · intro hc
        split at hc <;> simp at hc <;> (rw [hcmd] at hc; cases hc)

theorem procInv_handleMessage (s : ProcState) (m : Message) (h : ProcInv s) :
    ProcInv { s with pending := (handleMessage s.pending m).1 } := by
  obtain ⟨h1, h2⟩ := h
  unfold ProcInv
  refine ⟨fun hr => ?_, fun hc => ?_⟩
  · simp at hr ⊢; exact h1 hr
  · simp at hc ⊢
    have hp := h2 hc
    unfold handleMessage
    rw [hp]
    split
    · split <;> simp_all [List.lookup]
    · split
      · simp
      · split <;> simp

theorem procInv_readLoopEnd (s : ProcState) (g : Nat) (h : ProcInv s) :
    ProcInv (readLoopEnd g s) := by
  obtain ⟨h1, h2⟩ := h
  unfold ProcInv readLoopEnd
  split
  · refine ⟨fun hr => ?_, fun hc => ?_⟩
    · simp at hr
    · simp at hc ⊢; exact h2 hc
  · exact ⟨h1, h2⟩

theorem procInv_confirm (s : ProcState) (t o : String) (h : ProcInv s) :
    ProcInv (confirmPermission s t o).1 := by
  obtain ⟨h1, h2⟩ := h
  unfold ProcInv confirmPermission
  split
  · refine ⟨fun hr => ?_, fun hc => ?_⟩
    · simp at hr ⊢; exact h1 hr
    · simp at hc ⊢; exact h2 hc
  · exact ⟨h1, h2⟩

theorem procInv_applyOp (s : ProcState) (op : Op) (h : ProcInv s) :
    ProcInv (applyOp s op) := by
  cases op with
  | start ok gen => exact procInv_startP s ok gen h
  | stop => exact procInv_stopP s h
  | request method ok gen => exact procInv_requestP s method ok gen h
  | deliver m => exact procInv_handleMessage s m h
  | readLoopEnd g => exact procInv_readLoopEnd s g h
  | confirm t o => exact procInv_confirm s t o h
  | setWorkingDir d =>
      obtain ⟨h1, h2⟩ := h
      unfold ProcInv applyOp setWorkingDirP
      refine ⟨fun hr => ?_, fun hc => ?_⟩
      · simp at hr ⊢; exact h1 hr
      · simp at hc ⊢; exact h2 hc

theorem procInv_runOps (ops : List Op) : ProcInv (runOps ops) := by
  unfold runOps
  induction ops using List.reverseRecOn with
  | nil => exact procInv_init ""
  | append_singleton xs x ih =>
      rw [List.foldl_append, List.foldl_cons, List.foldl_nil]
      exact procInv_applyOp _ x ih
/-! ## Claims C1, C2, C3, C6, C7, C10, C9 -/

/-- C1 fails as stated: calling Stop on a process that was never started
(the trace consisting of the single Stop call) is a no-op, leaving the
status Idle, not Stopped. -/
theorem C1_stop_counterexample :
    runOps [Op.stop] = initProc "" ∧
    (runOps [Op.stop]).status = Status.idle ∧
    Status.idle ≠ Status.stopped := by
  refine ⟨?_, ?_, ?_⟩ <;> decide

/-- C1 (amended): for every sequence of operations on a Process, immediately
after a Stop() call returns the pending-request table is empty; and the
status is Stopped provided a subprocess handle existed when Stop was called
(a Stop with no process is a no-op that leaves the status unchanged). -/
theorem C1_stop_amended (ops : List Op) :
    (stopP (runOps ops)).1.pending = [] ∧
    ((runOps ops).cmdPresent = true →
      (stopP (runOps ops)).1.status = Status.stopped) := by
  have hInv := procInv_runOps ops
  constructor
  · unfold stopP
    split
    · simp
    · rename_i hc
      exact hInv.2 (by simpa using hc)
  · intro hcmd
    unfold stopP
    rw [if_pos hcmd]

theorem C1_stop_amended_witness :
    (stopP (runOps [Op.start true 1])).1.pending = [] ∧
    (stopP (runOps [Op.start true 1])).1.status = Status.stopped :=
  ⟨(C1_stop_amended [Op.start true 1]).1,
   (C1_stop_amended [Op.start true 1]).2 (by decide)⟩

/-- C2: if Stop is called while requests are outstanding, every outstanding
caller's result channel is closed, a closed channel makes Request return the
"request cancelled" failure (not block), and that failure is a different
value from every RemoteError. -/
theorem C2_stop_cancels (ops : List Op) (i : Int) (pr : PendingRequest)
    (hmem : (i, pr) ∈ (runOps ops).pending) :
    (i, ChanState.closed) ∈ (stopP (runOps ops)).2 ∧
    awaitResult ChanState.closed =
      some (Except.error RequestError.cancelled) ∧
    RequestError.text RequestError.cancelled = "request cancelled" ∧
    (∀ e : RpcError, RequestError.cancelled ≠ RequestError.remote e) := by
  have hInv := procInv_runOps ops
  refine ⟨?_, rfl, rfl, fun e h => RequestError.noConfusion h⟩
  have hcmd : (runOps ops).cmdPresent = true := by
    by_contra hc
    have hp := hInv.2 (by simpa using hc)
    rw [hp] at hmem
    cases hmem
  unfold stopP
  rw [if_pos hcmd]
  exact List.mem_map.mpr ⟨(i, pr), hmem, rfl⟩

theorem C2_stop_cancels_witness :
    (1, ChanState.closed) ∈ (stopP (runOps [Op.request "session/prompt" true 1])).2 ∧
    awaitResult ChanState.closed =
      some (Except.error RequestError.cancelled) ∧
    RequestError.text RequestError.cancelled = "request cancelled" ∧
    (∀ e : RpcError, RequestError.cancelled ≠ RequestError.remote e) :=
  C2_stop_cancels [Op.request "session/prompt" true 1] 1
    ⟨ChanState.waiting, "session/prompt"⟩ (by decide)

/-- C3 fails as stated: the optionID "reject" begins with the prefix
"reject", yet handlePermissionRequest classifies it as "selected", because
the code requires `len(optionID) > 6` strictly. -/
theorem C3_outcome_counterexample :
    "reject".data.isPrefixOf "reject".data = true ∧
    permissionOutcome "reject" = "selected" ∧
    ("selected" : String) ≠ "rejected" := by
  refine ⟨?_, ?_, ?_⟩ <;> decide

/-- C3 (amended): the outcome is "rejected" exactly when the optionID is
strictly longer than six characters and its first six characters are
"reject" (so "reject" alone yields "selected"); in particular confirming
"reject_once" yields "rejected" and "allow_once" yields "selected". -/
theorem C3_outcome_amended (o : String) :
    (permissionOutcome o = "rejected" ↔
      6 < o.length ∧ o.data.take 6 = "reject".data) ∧
    permissionOutcome "reject_once" = "rejected" ∧
    permissionOutcome "allow_once" = "selected" := by
  refine ⟨?_, by decide, by decide⟩
  unfold permissionOutcome
  split
  · rename_i h
    exact ⟨fun _ => h, fun _ => rfl⟩
  · rename_i h
    constructor
    · intro he
      simp at he
    · intro hc
      exact absurd hc h

/-- C6: the read loop's end-of-scan transition sets status Stopped only when
its captured stdout handle is still current or the process was cleared; when
the current stdout is a different non-nil handle the whole state is left
untouched. -/
theorem C6_readLoop_identity (s : ProcState) (captured : Nat) :
    ((readLoopEnd captured s).status = Status.stopped →
      s.status = Status.stopped ∨ s.stdout = some captured ∨ s.stdout = none) ∧
    ((s.stdout = some captured ∨ s.stdout = none) →
      (readLoopEnd captured s).status = Status.stopped) ∧
    (∀ h', s.stdout = some h' → h' ≠ captured → readLoopEnd captured s = s) := by
  refine ⟨?_, ?_, ?_⟩
  · unfold readLoopEnd
    split
    · rename_i hcond
      exact fun _ => Or.inr hcond
    · exact fun hs => Or.inl hs
  · intro hcond
    unfold readLoopEnd
    rw [if_pos hcond]
  · intro h' hcur hne
    unfold readLoopEnd
    rw [if_neg]
    rintro (hc | hc) <;> rw [hcur] at hc
    · exact hne (Option.some.inj hc)
    · cases hc

theorem C6_readLoop_identity_witness :
    readLoopEnd 1
      { initProc "" with stdout := some 2, status := Status.running } =
      { initProc "" with stdout := some 2, status := Status.running } ∧
    (readLoopEnd 2
      { initProc "" with stdout := some 2, status := Status.running }).status =
      Status.stopped :=
  ⟨(C6_readLoop_identity _ 1).2.2 2 rfl (by decide),
   (C6_readLoop_identity _ 2).2.1 (Or.inl rfl)⟩

/-- C7: each decoded line is classified exhaustively and exclusively: id
without method is a response (resolving and removing the matching pending
request), id with method is a reverse request, method without id is a
notification, and neither id nor method matches none of the three and is
ignored. -/
theorem C7_classification (m : Message) (pending : List (Int × PendingRequest)) :
    ((m.id?.isSome = true ∧ m.method = "") →
      m.IsResponse = true ∧ m.IsRequest = false ∧ m.IsNotification = false ∧
      (∀ i pr, m.id? = some i → pending.lookup i = some pr →
        handleMessage pending m =
          (pending.filter (fun p => p.1 ≠ i),
           Dispatch.response (some (i, { pr with result := ChanState.delivered m }))))) ∧
    ((m.id?.isSome = true ∧ m.method ≠ "") →
      m.IsRequest = true ∧ m.IsResponse = false ∧ m.IsNotification = false ∧
      handleMessage pending m = (pending, Dispatch.request)) ∧
    ((m.id? = none ∧ m.method ≠ "") →
      m.IsNotification = true ∧ m.IsResponse = false ∧ m.IsRequest = false ∧
      handleMessage pending m = (pending, Dispatch.notification)) ∧
    ((m.id? = none ∧ m.method = "") →
      m.IsResponse = false ∧ m.IsRequest = false ∧ m.IsNotification = false ∧
      handleMessage pending m = (pending, Dispatch.ignored)) := by
  refine ⟨fun hresp => ?_, fun hreq => ?_, fun hnotif => ?_, fun hnone => ?_⟩
  · have h1 : m.IsResponse = true := by
      simp [Message.IsResponse, hresp.1, hresp.2]
    have h2 : m.IsRequest = false := by
      simp [Message.IsRequest, hresp.2]
    have h3 : m.IsNotification = false := by
      rcases Option.isSome_iff_exists.mp hresp.1 with ⟨v, hv⟩
      simp [Message.IsNotification, hv]
    refine ⟨h1, h2, h3, fun i pr hid hlook => ?_⟩
    unfold handleMessage
    rw [if_pos ⟨h1, hresp.1⟩, hid]
    simp only [hlook]
  · have h1 : m.IsRequest = true := by
      simp [Message.IsRequest, hreq.1, hreq.2]
    have h2 : m.IsResponse = false := by
      simp [Message.IsResponse, hreq.2]
    have h3 : m.IsNotification = false := by
      rcases Option.isSome_iff_exists.mp hreq.1 with ⟨v, hv⟩
      simp [Message.IsNotification, hv]
    refine ⟨h1, h2, h3, ?_⟩
    unfold handleMessage
    rw [if_neg (by simp [h2]), if_pos h1]
  · have h1 : m.IsNotification = true := by
      simp [Message.IsNotification, hnotif.1, hnotif.2]
    have h2 : m.IsResponse = false := by
      simp [Message.IsResponse, hnotif.1]
    have h3 : m.IsRequest = false := by
      simp [Message.IsRequest, hnotif.1]
    refine ⟨h1, h2, h3, ?_⟩
    unfold handleMessage
    rw [if_neg (by simp [h2]), if_neg (by simp [h3]), if_pos h1]
  · have h1 : m.IsResponse = false := by
      simp [Message.IsResponse, hnone.1]
    have h2 : m.IsRequest = false := by
      simp [Message.IsRequest, hnone.1]
    have h3 : m.IsNotification = false := by
      simp [Message.IsNotification, hnone.2]
    refine ⟨h1, h2, h3, ?_⟩
    unfold handleMessage
    rw [if_neg (by simp [h1]), if_neg (by simp [h2]), if_neg (by simp [h3])]

theorem C7_classification_witness :
    handleMessage [((1 : Int), ⟨ChanState.waiting, "initialize"⟩)]
        ⟨some 1, "", none⟩ =
      ([((1 : Int), ⟨ChanState.waiting, "initialize"⟩)].filter (fun p => p.1 ≠ 1),
       Dispatch.response (some (1,
         ⟨ChanState.delivered ⟨some 1, "", none⟩, "initialize"⟩))) ∧
    handleMessage [] ⟨some 2, "fs/read_text_file", none⟩ =
      ([], Dispatch.request) ∧
    handleMessage [] ⟨none, "session/update", none⟩ =
      ([], Dispatch.notification) ∧
    handleMessage [] ⟨none, "", none⟩ = ([], Dispatch.ignored) :=
  ⟨((C7_classification ⟨some 1, "", none⟩ _).1 ⟨rfl, rfl⟩).2.2.2 1
      ⟨ChanState.waiting, "initialize"⟩ rfl (by decide),
   ((C7_classification ⟨some 2, "fs/read_text_file", none⟩ []).2.1
      ⟨rfl, by decide⟩).2.2.2,
   ((C7_classification ⟨none, "session/update", none⟩ []).2.2.1
      ⟨rfl, by decide⟩).2.2.2,
   ((C7_classification ⟨none, "", none⟩ []).2.2.2 ⟨rfl, rfl⟩).2.2.2⟩

/-- C10: confirming a permission for an unknown tool-call id is a no-op: the
process state is returned unchanged and nothing is delivered to any waiting
permission handler (so nothing is written to the subprocess). -/
theorem C10_confirm_unknown_noop (s : ProcState) (t o : String)
    (h : s.permissions.lookup t = none) :
    confirmPermission s t o = (s, none) := by
  unfold confirmPermission
  rw [h]

theorem C10_confirm_unknown_noop_witness :
    confirmPermission
      { initProc "" with permissions := [("tc-1", ⟨7, true⟩)] }
      "tc-2" "allow_once" =
      ({ initProc "" with permissions := [("tc-1", ⟨7, true⟩)] }, none) :=
  C10_confirm_unknown_noop _ "tc-2" "allow_once" (by decide)

/-- C9: reverse file-operation path resolution: an empty path resolves to
the working directory, an absolute path ignores the working directory and is
used verbatim, and any other path is the working directory joined with the
relative path. -/
theorem C9_resolvePath (wd p : String) :
    resolvePath wd "" = wd ∧
    (filepathIsAbs p = true → resolvePath wd p = p) ∧
    (p ≠ "" → filepathIsAbs p = false →
      resolvePath wd p = filepathJoin wd p) := by
  refine ⟨rfl, fun habs => ?_, fun hne hnabs => ?_⟩
  · by_cases hp : p = ""
    · subst hp
      exact absurd habs (by decide)
    · unfold resolvePath
      rw [if_neg hp, if_pos habs]
  · unfold resolvePath
    rw [if_neg hne, if_neg (by simp [hnabs])]
theorem C9_resolvePath_witness :
    resolvePath "/work" "" = "/work" ∧
    resolvePath "/work" "/etc/hosts" = "/etc/hosts" ∧
    resolvePath "/work" "sub/file.txt" = filepathJoin "/work" "sub/file.txt" :=
  ⟨(C9_resolvePath "/work" "x").1,
   (C9_resolvePath "/work" "/etc/hosts").2.1 (by decide),
   (C9_resolvePath "/work" "sub/file.txt").2.2 (by decide) (by decide)⟩

/-! ## Helper lemmas for the notification translator -/

theorem flushText_toolCallMap (s : TransState) :
    (flushText s).toolCallMap = s.toolCallMap := by
  unfold flushText
  split <;> rfl

theorem flushText_currentText (s : TransState) :
    (flushText s).currentText = "" := by
  unfold flushText
  split
  · rfl
  · rename_i h
    exact not_not.mp h

theorem flushText_of_empty (s : TransState) (h : s.currentText = "") :
    flushText s = s := by
  unfold flushText
  rw [if_neg (not_not_intro h)]

theorem flushText_getElem (s : TransState) (n : Nat)
    (h : n < s.streamItems.length) :
    (flushText s).streamItems[n]? = s.streamItems[n]? := by
  unfold flushText
  split
  · exact List.getElem?_append_left h
  · rfl

theorem flushText_length_le (s : TransState) :
    s.streamItems.length ≤ (flushText s).streamItems.length := by
  unfold flushText
  split
  · simp
  · exact le_refl _

theorem setSelfOfGetElem (l : List StreamItem) (n : Nat) (a : StreamItem)
    (h : l[n]? = some a) : l.set n a = l := by
  induction l generalizing n with
  | nil => cases h
  | cons x xs ih =>
      cases n with
      | zero =>
          simp at h
          rw [List.set_cons_zero, h]
      | succ k =>
          simp at h
          rw [List.set_cons_succ, ih k h]

theorem lookupMem (l : List (String × Nat)) (k : String) (v : Nat)
    (h : l.lookup k = some v) : (k, v) ∈ l := by
  induction l with
  | nil => cases h
  | cons x xs ih =>
      simp only [List.lookup] at h
      split at h
      · rename_i heq
        cases h
        have hk : k = x.1 := by simpa using heq
        rw [hk]
        exact List.mem_cons_self _ _
      · exact List.mem_cons_of_mem _ (ih h)

theorem mergeTool_self (f : ToolCallInfo) (tid : String) :
    mergeTool f f tid = f := by
  unfold mergeTool
  simp

theorem mergeTool_idem (f e : ToolCallInfo) (tid : String) :
    mergeTool f (mergeTool f e tid) tid = mergeTool f e tid := by
  unfold mergeTool
  dsimp only
  split_ifs <;> simp_all

theorem handleNotification_tool (a : String) (s : TransState)
    (u : SessionUpdate)
    (hk : u.sessionUpdate = "tool_call" ∨ u.sessionUpdate = "tool_call_update") :
    handleNotification a s "session/update" u = applyToolUpdate s u := by
  rcases hk with hk | hk <;> simp [handleNotification, hk]

theorem applyToolUpdate_of_lookup_none (s : TransState) (u : SessionUpdate)
    (hne : u.toolCallId ≠ "")
    (hl : s.toolCallMap.lookup u.toolCallId = none) :
    applyToolUpdate s u =
      ({ flushText s with
         toolCallMap :=
           (u.toolCallId, (flushText s).streamItems.length) ::
             (flushText s).toolCallMap,
         streamItems :=
           (flushText s).streamItems ++ [.tool (buildToolCall u)] },
       [Event.toolCall (buildToolCall u) u.sessionUpdate]) := by
  unfold applyToolUpdate
  rw [if_neg hne, flushText_toolCallMap, hl]

theorem applyToolUpdate_of_lookup_some (s : TransState) (u : SessionUpdate)
    (idx : Nat) (hne : u.toolCallId ≠ "")
    (hl : s.toolCallMap.lookup u.toolCallId = some idx) :
    applyToolUpdate s u =
      (let merged :=
        match (flushText s).streamItems[idx]? with
        | some (.tool existing) =>
            mergeTool (buildToolCall u) existing u.toolCallId
        | _ => buildToolCall u
       ({ flushText s with
          streamItems := (flushText s).streamItems.set idx (.tool merged) },
        [Event.toolCall merged u.sessionUpdate])) := by
  unfold applyToolUpdate
  dsimp only
  rw [if_neg hne, flushText_toolCallMap, hl]

theorem buildToolCall_description_completed (u : SessionUpdate)
    (h : u.status = "completed") : (buildToolCall u).description = "" := by
  unfold buildToolCall
  dsimp only
  rw [if_neg (not_not_intro h)]

theorem buildToolCall_description_not_completed (u : SessionUpdate)
    (h : u.status ≠ "completed") :
    (buildToolCall u).description = extractDescription u.content := by
  unfold buildToolCall
  dsimp only
  rw [if_pos h]

theorem mergeTool_description (f e : ToolCallInfo) (tid : String) :
    (mergeTool f e tid).description =
      if f.description = "" then e.description else f.description := by
  unfold mergeTool
  rfl

theorem recordAt_eq_some (s : TransState) (tid : String) (E : ToolCallInfo)
    (h : recordAt s tid = some E) :
    ∃ idx, s.toolCallMap.lookup tid = some idx ∧
      s.streamItems[idx]? = some (.tool E) := by
  unfold recordAt at h
  split at h
  · rename_i idx hl
    split at h
    · rename_i r hr
      cases h
      exact ⟨idx, hl, hr⟩
    · cases h
  · cases h

/-- When the state already stores, at the mapped index, a record that the
incoming update merges to itself, re-applying the update returns the state
unchanged and re-emits the same event. -/
theorem applyToolUpdate_stable (s1 : TransState) (u : SessionUpdate)
    (r : ToolCallInfo) (n : Nat)
    (hne : u.toolCallId ≠ "") (hct : s1.currentText = "")
    (hlook : s1.toolCallMap.lookup u.toolCallId = some n)
    (hget : s1.streamItems[n]? = some (.tool r))
    (hr : mergeTool (buildToolCall u) r u.toolCallId = r) :
    applyToolUpdate s1 u = (s1, [Event.toolCall r u.sessionUpdate]) := by
  rw [applyToolUpdate_of_lookup_some s1 u n hne hlook]
  dsimp only
  rw [flushText_of_empty s1 hct, hget]
  dsimp only
  rw [hr, setSelfOfGetElem _ _ _ hget]

/-- When the state already stores a tool record E at the mapped index and no
text is pending, applying an update for that id merges into E in place. -/
theorem applyToolUpdate_merge_at (s1 : TransState) (u : SessionUpdate)
    (E : ToolCallInfo) (n : Nat)
    (hne : u.toolCallId ≠ "") (hct : s1.currentText = "")
    (hlook : s1.toolCallMap.lookup u.toolCallId = some n)
    (hget : s1.streamItems[n]? = some (.tool E)) :
    applyToolUpdate s1 u =
      ({ s1 with
         streamItems :=
           s1.streamItems.set n
             (.tool (mergeTool (buildToolCall u) E u.toolCallId)) },
       [Event.toolCall (mergeTool (buildToolCall u) E u.toolCallId)
          u.sessionUpdate]) := by
  rw [applyToolUpdate_of_lookup_some s1 u n hne hlook]
  dsimp only
  rw [flushText_of_empty s1 hct, hget]

/-! ## Claims C8, C4, C5 -/

/-- C8 fails as stated: a session/update of kind available_commands_update
carrying an empty command list neither replaces the cached command list nor
sends a "commands" event; the handler ignores it entirely (it does also
suppress the generic update). -/
theorem C8_commands_counterexample :
    handleNotification "claude"
      ⟨[], "", [], [("claude", [⟨"/help", "Show help"⟩])]⟩
      "session/update"
      ⟨"available_commands_update", none, "", "", "", "", none, "", none, []⟩ =
      (⟨[], "", [], [("claude", [⟨"/help", "Show help"⟩])]⟩, []) ∧
    [("claude", [(⟨"/help", "Show help"⟩ : SlashCommand)])] ≠
      [("claude", ([] : List SlashCommand))] := by
  constructor
  · rfl
  · decide

/-- C8 (amended): an available_commands_update with a non-empty command list
replaces the cached list for the originating agent (the cache afterwards
maps the agent to the received list) and emits exactly one "commands" event
and no generic update; one with an empty list is ignored outright: no cache
change and no event of any kind. -/
theorem C8_commands_amended (agentID : String) (s : TransState)
    (u : SessionUpdate)
    (hk : u.sessionUpdate = "available_commands_update") :
    (u.availableCommands ≠ [] →
      handleNotification agentID s "session/update" u =
        ({ s with agentCommands :=
             putAssoc s.agentCommands agentID u.availableCommands },
         [Event.commands agentID u.availableCommands]) ∧
      (putAssoc s.agentCommands agentID u.availableCommands).lookup agentID =
        some u.availableCommands) ∧
    (u.availableCommands = [] →
      handleNotification agentID s "session/update" u = (s, [])) := by
  constructor
  · intro hc
    constructor
    · simp [handleNotification, hk, List.length_pos.mpr hc]
    · simp [putAssoc, List.lookup]
  · intro hc
    simp [handleNotification, hk, hc]

theorem C8_commands_amended_witness :
    handleNotification "claude"
      ⟨[], "", [], []⟩ "session/update"
      ⟨"available_commands_update", none, "", "", "", "", none, "", none,
        [⟨"/help", "Show help"⟩]⟩ =
      (⟨[], "", [], [("claude", [⟨"/help", "Show help"⟩])]⟩,
       [Event.commands "claude" [⟨"/help", "Show help"⟩]]) ∧
    handleNotification "claude"
      ⟨[], "", [], []⟩ "session/update"
      ⟨"available_commands_update", none, "", "", "", "", none, "", none, []⟩ =
      (⟨[], "", [], []⟩, []) := by
  constructor
  · have h := ((C8_commands_amended "claude" ⟨[], "", [], []⟩
      ⟨"available_commands_update", none, "", "", "", "", none, "", none,
        [⟨"/help", "Show help"⟩]⟩ rfl).1 (by simp)).1
    rw [h]
    rfl
  · exact (C8_commands_amended "claude" ⟨[], "", [], []⟩
      ⟨"available_commands_update", none, "", "", "", "", none, "", none,
        []⟩ rfl).2 rfl

/-- C4: applying a tool_call with status pending carrying description d,
followed by a tool_call_update for the same id with status completed (whose
extracted description is therefore empty), stores a merged record whose
description is still d; and, in general, an update whose status is
"completed" never overwrites the stored record's description. -/
theorem C4_description_preserved :
    (∀ (a : String) (s : TransState) (u1 u2 : SessionUpdate),
      u1.toolCallId ≠ "" →
      u1.sessionUpdate = "tool_call" →
      u2.sessionUpdate = "tool_call_update" →
      u2.toolCallId = u1.toolCallId →
      u1.status = "pending" → u2.status = "completed" →
      s.toolCallMap.lookup u1.toolCallId = none →
      (recordAt
          ((handleNotification a
              ((handleNotification a s "session/update" u1).1)
              "session/update" u2).1) u1.toolCallId).map
          (fun r => r.description) =
        some (extractDescription u1.content)) ∧
    (∀ (a : String) (s : TransState) (u : SessionUpdate) (E : ToolCallInfo),
      u.sessionUpdate = "tool_call_update" →
      u.status = "completed" →
      recordAt s u.toolCallId = some E →
      (recordAt ((handleNotification a s "session/update" u).1)
          u.toolCallId).map (fun r => r.description) = some E.description) := by
  constructor
  · intro a s u1 u2 h1ne h1k h2k h2id h1st h2st hl
    rw [handleNotification_tool a s u1 (Or.inl h1k)]
    rw [applyToolUpdate_of_lookup_none s u1 h1ne hl]
    rw [handleNotification_tool a _ u2 (Or.inr h2k)]
    dsimp only
    rw [applyToolUpdate_merge_at _ u2 (buildToolCall u1)
      (flushText s).streamItems.length
      (h2id ▸ h1ne)
      (by exact flushText_currentText s)
      (by dsimp only; rw [h2id]; simp [List.lookup])
      (by dsimp only; exact List.getElem?_concat_length _ _)]
    unfold recordAt
    dsimp only
    simp only [List.lookup, beq_self_eq_true]
    rw [List.getElem?_set_eq_of_lt _ (by simp)]
    show some ((mergeTool (buildToolCall u2) (buildToolCall u1)
        u2.toolCallId).description) = some (extractDescription u1.content)
    rw [mergeTool_description,
      if_pos (buildToolCall_description_completed u2 h2st),
      buildToolCall_description_not_completed u1 (by rw [h1st]; decide)]
  · intro a s u E hk hst hrec
    obtain ⟨idx, hl, hitem⟩ := recordAt_eq_some s u.toolCallId E hrec
    have hidx : idx < s.streamItems.length := by
      rcases List.getElem?_eq_some_iff.mp hitem with ⟨h, _⟩
      exact h
    have hidx' : idx < (flushText s).streamItems.length :=
      lt_of_lt_of_le hidx (flushText_length_le s)
    have hget' : (flushText s).streamItems[idx]? = some (.tool E) := by
      rw [flushText_getElem s idx hidx]
      exact hitem
    rw [handleNotification_tool a s u (Or.inr hk)]
    by_cases hne : u.toolCallId = ""
    · have h1 : applyToolUpdate s u = (flushText s, []) := by
        unfold applyToolUpdate
        rw [if_pos hne]
      rw [h1]
      unfold recordAt
      dsimp only
      rw [flushText_toolCallMap, hl]
      dsimp only
      rw [hget']
      rfl
    · rw [applyToolUpdate_of_lookup_some s u idx hne hl]
      dsimp only
      rw [hget']
      dsimp only
      unfold recordAt
      dsimp only
      rw [flushText_toolCallMap, hl]
      dsimp only
      rw [List.getElem?_set_eq_of_lt _ hidx']
      dsimp only
      show some ((mergeTool (buildToolCall u) E u.toolCallId).description) =
        some E.description
      rw [mergeTool_description,
        if_pos (buildToolCall_description_completed u hst)]

theorem C4_description_preserved_witness :
    (recordAt
        ((handleNotification "claude"
            ((handleNotification "claude" ⟨[], "", [], []⟩ "session/update"
              ⟨"tool_call",
               some (.arr [.obj [("content", .obj [("text", .str "Running ls")])]]),
               "t1", "List files", "pending", "execute",
               some [("command", .str "ls")], "", none, []⟩).1)
            "session/update"
            ⟨"tool_call_update", none, "t1", "", "completed", "execute",
             none, "", none, []⟩).1) "t1").map
      (fun r => r.description) = some "Running ls" :=
  (C4_description_preserved).1 "claude" ⟨[], "", [], []⟩
    ⟨"tool_call",
     some (.arr [.obj [("content", .obj [("text", .str "Running ls")])]]),
     "t1", "List files", "pending", "execute",
     some [("command", .str "ls")], "", none, []⟩
    ⟨"tool_call_update", none, "t1", "", "completed", "execute",
     none, "", none, []⟩
    (by decide) rfl rfl rfl rfl rfl rfl

/-- C5: applying the same tool_call_update twice in succession from any
well-formed translator state produces exactly the state (stream items,
text buffer, index map, caches) of applying it once, and even re-emits the
same event: the merge is idempotent and no duplicate record is appended. -/
theorem C5_merge_idempotent (a : String) (s : TransState) (u : SessionUpdate)
    (hw : WfTrans s) (hk : u.sessionUpdate = "tool_call_update") :
    handleNotification a (handleNotification a s "session/update" u).1
        "session/update" u =
      handleNotification a s "session/update" u := by
  rw [handleNotification_tool a s u (Or.inr hk)]
  conv_lhs => rw [handleNotification_tool a _ u (Or.inr hk)]
  by_cases hne : u.toolCallId = ""
  · have h1 : applyToolUpdate s u = (flushText s, []) := by
      unfold applyToolUpdate
      rw [if_pos hne]
    have h2 : applyToolUpdate (flushText s) u =
        (flushText (flushText s), []) := by
      unfold applyToolUpdate
      rw [if_pos hne]
    rw [h1]
    rw [show ((flushText s, ([] : List Event)).1 : TransState) = flushText s
      from rfl]
    rw [h2, flushText_of_empty (flushText s) (flushText_currentText s)]
  · cases hl : s.toolCallMap.lookup u.toolCallId with
    | none =>
        rw [applyToolUpdate_of_lookup_none s u hne hl]
        dsimp only
        exact applyToolUpdate_stable _ u (buildToolCall u)
          (flushText s).streamItems.length hne (flushText_currentText s)
          (by simp [List.lookup])
          (List.getElem?_concat_length _ _)
          (mergeTool_self (buildToolCall u) u.toolCallId)
    | some idx =>
        have hidx : idx < s.streamItems.length :=
          hw (u.toolCallId, idx) (lookupMem _ _ _ hl)
        have hidx' : idx < (flushText s).streamItems.length :=
          lt_of_lt_of_le hidx (flushText_length_le s)
        rw [applyToolUpdate_of_lookup_some s u idx hne hl]
        dsimp only
        cases hitem : (flushText s).streamItems[idx]? with
        | none =>
            exact absurd hitem (by
              rw [List.getElem?_eq_none_iff]
              exact fun h => absurd hidx' (not_lt.mpr h))
        | some item =>
            cases item with
            | text t =>
                dsimp only
                exact applyToolUpdate_stable _ u (buildToolCall u) idx hne
                  (flushText_currentText s)
                  (by dsimp only; rw [flushText_toolCallMap]; exact hl)
                  (by dsimp only
                      rw [List.getElem?_set_eq_of_lt _ hidx'])
                  (mergeTool_self (buildToolCall u) u.toolCallId)
            | tool E =>
                dsimp only
                exact applyToolUpdate_stable _ u
                  (mergeTool (buildToolCall u) E u.toolCallId) idx hne
                  (flushText_currentText s)
                  (by dsimp only; rw [flushText_toolCallMap]; exact hl)
                  (by dsimp only
                      rw [List.getElem?_set_eq_of_lt _ hidx'])
                  (mergeTool_idem (buildToolCall u) E u.toolCallId)

theorem C5_merge_idempotent_witness :
    handleNotification "claude"
        ((handleNotification "claude" ⟨[], "", [], []⟩ "session/update"
          ⟨"tool_call_update", none, "t1", "Run", "completed", "execute",
           some [("command", .str "ls")], "", none, []⟩).1)
        "session/update"
        ⟨"tool_call_update", none, "t1", "Run", "completed", "execute",
         some [("command", .str "ls")], "", none, []⟩ =
      handleNotification "claude" ⟨[], "", [], []⟩ "session/update"
        ⟨"tool_call_update", none, "t1", "Run", "completed", "execute",
         some [("command", .str "ls")], "", none, []⟩ :=
  C5_merge_idempotent "claude" ⟨[], "", [], []⟩
    ⟨"tool_call_update", none, "t1", "Run", "completed", "execute",
     some [("command", .str "ls")], "", none, []⟩
    (fun q hq => absurd hq (List.not_mem_nil q)) rfl

end AcpOne
